import Mathlib

/-!
Verification development for the Openclaw-Fido repository: a shallow
embedding of the FIDO2 secrets resolver (`scripts/fido2-resolver.mjs`),
the key-management CLI (`scripts/fido2-keys/src/cli.ts`) and the crypto
module (`scripts/fido2-keys/src/crypto.ts`), together with theorems about
the key-derivation scheme, the encryption round trip, the resolver
protocol and the store invariants.

Modelling conventions (interface boundaries of external libraries):
  - Byte sequences are `List Nat`.
  - The WHATWG TextEncoder/TextDecoder pair (an injective encoding of
    strings to UTF-8 bytes and its inverse) is modelled by `textEncode`,
    the sequence of code points of the string; only injectivity and
    concatenation structure of the encoding are used.
  - Node's base64 transport (`Buffer.from(_, 'base64')` /
    `buf.toString('base64')`) is a bijection between byte sequences and
    their base64 strings; it is modelled as the identity, i.e. fields
    that hold base64 text in the JSON file hold the decoded bytes here.
  - WebCrypto AES-256-GCM is modelled symbolically: a sealed blob
    remembers the key and IV it was produced under and the plaintext;
    `subtle.decrypt` succeeds exactly when key and IV match, which is
    the standard symbolic model of an AEAD (authentication-tag check).
  - WebCrypto PBKDF2 (`subtle.deriveKey`) is deterministic in its
    parameters, so the derived key is modelled as the tuple of
    parameters the source passes to `deriveKey`.
-/

deriving instance DecidableEq for Except

namespace OpenclawFido

/-- Byte sequences (raw `Uint8Array` / `Buffer` contents). -/
abbrev Bytes := List Nat

/-- Modelled at the interface boundary: WHATWG `TextEncoder`, an injective
encoding of strings to byte sequences, represented by the code-point
sequence of the string. -/
def textEncode (s : String) : Bytes :=
  s.data.map Char.toNat

/-- Result of `webcrypto.subtle.deriveKey` as invoked by
`deriveEncryptionKey`: PBKDF2 is a deterministic function of these
parameters, so the non-exportable `CryptoKey` handle is modelled as the
tuple of parameters the source passes. -/
structure DerivedKey where
  ikm : Bytes
  salt : Bytes
  iterations : Nat
  hashAlg : String
  keyAlg : String
  keyLength : Nat
  extractable : Bool
  usages : List String
deriving DecidableEq, Repr

/-- PBKDF2 iteration count, `const PBKDF2_ITERATIONS = 100000` in both
`crypto.ts` and `fido2-resolver.mjs`. -/
def PBKDF2_ITERATIONS : Nat := 100000

/-- AES-GCM IV length in bytes, `const AES_GCM_IV_LENGTH = 12`. -/
def AES_GCM_IV_LENGTH : Nat := 12

/-- Embedding of `deriveEncryptionKey(credentialId, credentialPublicKey)`
from `crypto.ts` (the resolver carries a byte-identical copy): the input
key material is the encoded `credentialId` concatenated with the raw
public-key bytes, and the key is derived by PBKDF2 (100000 iterations,
SHA-256) with the public key as salt into a non-exportable 256-bit
AES-GCM key usable for encrypt and decrypt. -/
def deriveEncryptionKey (credentialId : String) (credentialPublicKey : Bytes) :
    DerivedKey :=
  { ikm := textEncode credentialId ++ credentialPublicKey
    salt := credentialPublicKey
    iterations := PBKDF2_ITERATIONS
    hashAlg := "SHA-256"
    keyAlg := "AES-GCM"
    keyLength := 256
    extractable := false
    usages := ["encrypt", "decrypt"] }

/-- Symbolic AES-GCM ciphertext: `subtle.encrypt` output remembers the
key and IV it was sealed under and the plaintext string (TextEncoder /
TextDecoder round trip modelled as identity on strings). -/
structure AesGcmSealed where
  key : DerivedKey
  iv : Bytes
  data : String
deriving DecidableEq, Repr

/-- Contents of a stored `encryptedValue` field (after base64 decoding):
either a well-formed AES-GCM sealed blob, or an arbitrary string that was
never produced by `encryptValue` (legacy / hand-edited records). -/
inductive StoredBlob where
  | sealed (c : AesGcmSealed)
  | raw (s : String)
deriving DecidableEq, Repr

/-- Symbolic model of `webcrypto.subtle.decrypt` for AES-GCM: the
authentication tag verifies exactly when the blob is a sealed blob whose
key and IV match; otherwise the promise rejects with an
`OperationError`. The model does not distinguish wrong-key from
tampered-data failures, matching GCM's single failure mode. -/
def aesGcmDecrypt (blob : StoredBlob) (iv : Bytes) (key : DerivedKey) :
    Except String String :=
  match blob with
  | .sealed c => if c.key = key ∧ c.iv = iv then .ok c.data else .error "OperationError"
  | .raw _ => .error "OperationError"

/-- Result record of `encryptValue` (interface `EncryptedResult` in
`types.ts`): base64 ciphertext and base64 IV, both modelled as the
decoded contents. -/
structure EncryptedResult where
  encrypted : StoredBlob
  iv : Bytes
deriving DecidableEq, Repr

/-- Embedding of `encryptValue(value, key)` from `crypto.ts`. The fresh
random IV drawn by `webcrypto.getRandomValues` is passed explicitly as
the `iv` argument (randomness threaded from the caller). -/
def encryptValue (value : String) (key : DerivedKey) (iv : Bytes) :
    EncryptedResult :=
  { encrypted := .sealed { key := key, iv := iv, data := value }
    iv := iv }

/-- Embedding of `decryptValue(encrypted, iv, key)` from `crypto.ts`
(the copies in `cli.ts` and the resolver have the same body): base64
decode both arguments, AES-GCM decrypt, decode the plaintext bytes. -/
def decryptValue (encrypted : StoredBlob) (iv : Bytes) (key : DerivedKey) :
    Except String String :=
  aesGcmDecrypt encrypted iv key

/-- Embedding of the `Fido2StoredKey` interface from `types.ts` (also the
record shape read by the resolver): `credentialId` and
`credentialPublicKey` are optional, and the resolver additionally guards
against an absent `iv`. Base64 fields hold their decoded contents. -/
structure Fido2StoredKey where
  id : String
  label : String
  encryptedValue : Option StoredBlob
  iv : Option Bytes
  createdAt : Nat
  rpId : String
  userHandle : String
  credentialId : Option String
  credentialPublicKey : Option Bytes
deriving DecidableEq, Repr

/-- JavaScript truthiness of the `encryptedValue` field as a base64
string: absent is falsy, an empty string is falsy, and a sealed AES-GCM
blob always encodes to a nonempty base64 string (the ciphertext carries a
16-byte tag), hence is truthy. -/
def truthyEnc : Option StoredBlob → Bool
  | none => false
  | some (.sealed _) => true
  | some (.raw s) => !(s == "")

/-- JavaScript truthiness of the `credentialPublicKey` field as a base64
string: absent is falsy and the base64 of the empty byte string is the
empty string, hence falsy. -/
def truthyPk : Option Bytes → Bool
  | none => false
  | some pk => !(pk == [])

/-- Character-list prefix test, used by the substring classifier below. -/
def charPrefixEq : List Char → List Char → Bool
  | [], _ => true
  | _ :: _, [] => false
  | a :: as, b :: bs => a == b && charPrefixEq as bs

/-- Character-list substring test. -/
def charHasSub (pat : List Char) : List Char → Bool
  | [] => pat.isEmpty
  | b :: bs => charPrefixEq pat (b :: bs) || charHasSub pat bs

/-- Test for `errorMessage.includes(pat)` on strings. -/
def strHasSub (s pat : String) : Bool :=
  charHasSub pat.data s.data

/-- Error codes from the resolver's `ERROR_CODES` table. -/
def FIDO2_CANCELLED : String := "fido2_cancelled"

/-- Error code for a FIDO2 timeout. -/
def FIDO2_TIMEOUT : String := "fido2_timeout"

/-- Error code for a decryption failure. -/
def DECRYPTION_FAILED : String := "decryption_failed"

/-- Value placed into the `values` map for one identifier: either the
decrypted plaintext, or — on the legacy non-hardware-bound path — the
raw stored `encryptedValue` field passed through unchanged (possibly
absent, i.e. `undefined`). -/
inductive ResolvedValue where
  | plain (s : String)
  | passthrough (b : Option StoredBlob)
deriving DecidableEq, Repr

/-- Outcome of `resolveSecretKey` for one identifier: either an object
with a `value` field (placed into the response's `values` map) or an
object with `error`/`message` fields (placed into `errors`). -/
inductive ResolveOutcome where
  | value (v : ResolvedValue)
  | failure (code : String) (message : String)
deriving DecidableEq, Repr

/-- Embedding of the `catch` block of `resolveSecretKey`: classify a
thrown error message by substring into cancelled / timeout / decryption
failure, exactly as the source tests `includes('取消') || includes('cancel')`
and `includes('超时') || includes('timeout')`. -/
def classifyResolveError (msg : String) : ResolveOutcome :=
  if strHasSub msg "取消" || strHasSub msg "cancel" then
    .failure FIDO2_CANCELLED "FIDO2 操作被用户取消"
  else if strHasSub msg "超时" || strHasSub msg "timeout" then
    .failure FIDO2_TIMEOUT "FIDO2 操作超时"
  else
    .failure DECRYPTION_FAILED msg

/-- Embedding of `normalizeId` from the resolver: the source matches the
array notation regex but returns the original `id` in both branches, so
the function is the identity. -/
def normalizeId (id : String) : String := id

/-- Embedding of `resolveSecretKey(id, storedKey)` from the resolver.
The simulated authenticator interaction `getFido2Credential` always
succeeds (it has no failure path and its assertion result is unused for
decryption), so it contributes nothing to the outcome. The
`requiresFido2` test is the JS truthiness of `storedKey.encryptedValue
&& storedKey.credentialPublicKey`. When it fails, the stored
`encryptedValue` is returned as the value unchanged (legacy plaintext
passthrough, the commented 向后兼容 branch). Otherwise the decryption key
is derived from the requested identifier `id` and the record's public
key, and a decryption failure (including an absent `iv`, where
`Buffer.from(undefined)` throws) is routed through the `catch`
classifier. -/
def resolveSecretKey (id : String) (storedKey : Fido2StoredKey) :
    ResolveOutcome :=
  match storedKey.encryptedValue, storedKey.credentialPublicKey with
  | some blob, some pk =>
    if truthyEnc (some blob) && truthyPk (some pk) then
      let encryptionKey := deriveEncryptionKey id pk
      match storedKey.iv with
      | none => classifyResolveError "The first argument must be of type string or an instance of Buffer"
      | some iv =>
        match decryptValue blob iv encryptionKey with
        | .ok v => .value (.plain v)
        | .error m => classifyResolveError ("解密失败: " ++ m)
    else
      .value (.passthrough storedKey.encryptedValue)
  | _, _ => .value (.passthrough storedKey.encryptedValue)

/-- JSON document found in the store file once `JSON.parse` succeeds:
either an array of records, or some other JSON value (`Array.isArray`
fails). -/
inductive JsonDoc where
  | array (records : List Fido2StoredKey)
  | notArray
deriving DecidableEq, Repr

/-- State of the store file `~/.openclaw/fido2-keys.json` as observed by
`fs.readFile` + `JSON.parse`: absent (`ENOENT`), present but not
parseable JSON, or present with a parse result. -/
inductive StoreFileState where
  | absent
  | unparseable (raw : String)
  | parsed (doc : JsonDoc)
deriving DecidableEq, Repr

/-- Embedding of `loadStoredKeys` from `fido2-resolver.mjs`: an absent
file yields the empty array; a parse failure or a parsed non-array value
is rethrown as a storage-read error (`读取存储文件失败`). -/
def resolverLoadStoredKeys (st : StoreFileState) :
    Except String (List Fido2StoredKey) :=
  match st with
  | .absent => .ok []
  | .unparseable _ => .error "读取存储文件失败"
  | .parsed .notArray => .error "读取存储文件失败: 存储文件格式无效: 不是数组"
  | .parsed (.array ks) => .ok ks

/-- Embedding of `loadStoredKeys` from `cli.ts`: every failure —
including an unparseable store file — is swallowed by the bare `catch`
and the empty array is returned; a parsed non-array value is returned
as-is without the array check (modelled as the empty record list, the
closest well-typed reading of `return JSON.parse(data)`). -/
def cliLoadStoredKeys (st : StoreFileState) : List Fido2StoredKey :=
  match st with
  | .absent => []
  | .unparseable _ => []
  | .parsed .notArray => []
  | .parsed (.array ks) => ks

/-- Request object of the exec-provider protocol. Fields are optional to
model absent or non-conforming JSON fields: `ids := none` stands for an
absent or non-array `ids` field (the source's
`!request.ids || !Array.isArray(request.ids)` test). -/
structure ExecRequest where
  protocolVersion : Option Nat
  provider : Option String
  ids : Option (List String)
deriving DecidableEq, Repr

/-- Association-list lookup for the response maps (JS object property
read). -/
def mlookup {α : Type} (m : List (String × α)) (k : String) : Option α :=
  match m with
  | [] => none
  | (k', v) :: rest => if k' = k then some v else mlookup rest k

/-- Association-list update for the response maps (JS object property
assignment: overwrite if present, append otherwise). -/
def mupsert {α : Type} (m : List (String × α)) (k : String) (v : α) :
    List (String × α) :=
  match m with
  | [] => [(k, v)]
  | (k', v') :: rest =>
    if k' = k then (k, v) :: rest else (k', v') :: mupsert rest k v

/-- Response object of the exec-provider protocol. -/
structure ExecResponse where
  protocolVersion : Nat
  provider : String
  values : List (String × ResolvedValue)
  errors : List (String × String)
deriving DecidableEq, Repr

/-- Response skeleton built by `resolveSecrets` after validation:
protocol version 1, the validated provider, and empty maps. -/
def emptyResponse : ExecResponse :=
  { protocolVersion := 1, provider := "fido2", values := [], errors := [] }

/-- One iteration of the resolver's per-identifier loop: look the record
up by the normalized id, record a `Key not found` error if absent, and
otherwise file the `resolveSecretKey` outcome under the requested id in
`values` or `errors`. -/
def respStep (storedKeys : List Fido2StoredKey) (resp : ExecResponse)
    (id : String) : ExecResponse :=
  let normalizedId := normalizeId id
  match storedKeys.find? (fun k => decide (k.id = normalizedId)) with
  | none =>
    { resp with errors := mupsert resp.errors id "Key not found in FIDO2 storage" }
  | some storedKey =>
    match resolveSecretKey normalizedId storedKey with
    | .value v => { resp with values := mupsert resp.values id v }
    | .failure _ m => { resp with errors := mupsert resp.errors id m }

/-- Rendering of an optional number into a JS template string
(`undefined` for an absent field). -/
def showOptNat : Option Nat → String
  | none => "undefined"
  | some n => toString n

/-- Rendering of an optional string into a JS template string. -/
def showOptStr : Option String → String
  | none => "undefined"
  | some s => s

/-- Embedding of `resolveSecrets(request)` from the resolver: validate
protocol version, provider and identifier list, rejecting the whole
request by throwing (`Except.error`); then load the store — a load
failure is caught and answered with a response whose `values` and
`errors` are both empty — and finally fold the per-identifier loop over
the requested ids. -/
def resolveSecrets (req : ExecRequest) (store : StoreFileState) :
    Except String ExecResponse :=
  if req.protocolVersion ≠ some 1 then
    .error ("不支持的协议版本: " ++ showOptNat req.protocolVersion ++ ", 支持: 1")
  else if req.provider ≠ some "fido2" then
    .error ("不支持的 provider: " ++ showOptStr req.provider)
  else
    match req.ids with
    | none => .error "请求中缺少有效的 IDs"
    | some [] => .error "请求中缺少有效的 IDs"
    | some ids =>
      match resolverLoadStoredKeys store with
      | .error _ => .ok emptyResponse
      | .ok storedKeys => .ok (ids.foldl (respStep storedKeys) emptyResponse)

/-- Embedding of `main()` from the resolver, from the point where the
request has been parsed: on success the response is emitted and the
process exits 0; a thrown error is answered with the `_system` error
response and exit code 1. -/
def fido2Main (req : ExecRequest) (store : StoreFileState) :
    ExecResponse × Nat :=
  match resolveSecrets req store with
  | .ok resp => (resp, 0)
  | .error m =>
    ({ protocolVersion := 1, provider := "fido2", values := []
       errors := [("_system", m)] }, 1)

/-- Per-identifier resolution outcome as a function of the loaded store
and the identifier alone, mirroring one iteration of the loop: used to
state that each identifier's entry is independent of the other requested
identifiers. -/
def idResolution (storedKeys : List Fido2StoredKey) (id : String) :
    Except String ResolvedValue :=
  match storedKeys.find? (fun k => decide (k.id = normalizeId id)) with
  | none => .error "Key not found in FIDO2 storage"
  | some storedKey =>
    match resolveSecretKey (normalizeId id) storedKey with
    | .value v => .ok v
    | .failure _ m => .error m

/-- Removal of the first record with the given id, the effect of the
source's `keys.splice(keys.findIndex(k => k.id === id), 1)` in `setKey`
(splice at the found index removes exactly the first match). -/
def removeFirstById (id : String) : List Fido2StoredKey → List Fido2StoredKey
  | [] => []
  | k :: ks => if k.id = id then ks else k :: removeFirstById id ks

/-- Embedding of `setKey(id, label, value)` from `cli.ts`. The effects
of the interactive environment are threaded as arguments: the enrollment
result of `createCredential` (`credentialId`, `publicKey`), the fresh
random `iv` drawn inside `encryptValue`, the `Date.now()` timestamp, and
the user's answer to the overwrite confirmation prompt. Enrollment and
encryption happen before the store is consulted, exactly as in the
source; the encryption key is derived from the enrolled `credentialId`.
The result is `some keys` when `saveStoredKeys(keys)` is called and
`none` when the function returns without saving (overwrite declined). -/
def setKey (store : List Fido2StoredKey) (id label value : String)
    (credentialId : String) (publicKey : Bytes) (iv : Bytes) (now : Nat)
    (confirmReplace : Bool) : Option (List Fido2StoredKey) :=
  let encryptionKey := deriveEncryptionKey credentialId publicKey
  let enc := encryptValue value encryptionKey iv
  let storedKey : Fido2StoredKey :=
    { id := id
      label := label
      encryptedValue := some enc.encrypted
      iv := some enc.iv
      createdAt := now
      rpId := "openclaw.ai"
      userHandle := "openclaw-" ++ id
      credentialId := some credentialId
      credentialPublicKey := some publicKey }
  if store.any (fun k => decide (k.id = id)) then
    if confirmReplace then some (removeFirstById id store ++ [storedKey])
    else none
  else some (store ++ [storedKey])

/-- Embedding of `deleteKey(id)` from `cli.ts`: an absent record throws
(no save), a declined confirmation returns without saving, and a
confirmed deletion filters out every record with the id and saves. -/
def deleteKey (store : List Fido2StoredKey) (id : String)
    (confirmDelete : Bool) : Option (List Fido2StoredKey) :=
  if store.any (fun k => decide (k.id = id)) then
    if confirmDelete then some (store.filter (fun k => !decide (k.id = id)))
    else none
  else none

/-- Embedding of `getKeyValue(id)` from `cli.ts`: find the record, and
if both `encryptedValue` and `credentialPublicKey` are truthy, derive
the key from the record's `id` field and the public key and decrypt;
any other record shape throws `此密钥未使用 FIDO2 加密`. -/
def getKeyValue (store : List Fido2StoredKey) (id : String) :
    Except String String :=
  match store.find? (fun k => decide (k.id = id)) with
  | none => .error ("密钥 \"" ++ id ++ "\" 不存在")
  | some key =>
    match key.encryptedValue, key.credentialPublicKey with
    | some blob, some pk =>
      if truthyEnc (some blob) && truthyPk (some pk) then
        match key.iv with
        | none => .error "解密失败: The first argument must be of type string or an instance of Buffer"
        | some iv =>
          match decryptValue blob iv (deriveEncryptionKey key.id pk) with
          | .ok v => .ok v
          | .error m => .error ("解密失败: " ++ m)
      else .error "此密钥未使用 FIDO2 加密"
    | _, _ => .error "此密钥未使用 FIDO2 加密"

/-- Management operation on the persisted store, with every interactive
input recorded in the operation. -/
inductive StoreOp where
  | setOp (id label value credentialId : String) (publicKey iv : Bytes)
      (now : Nat) (confirmReplace : Bool)
  | deleteOp (id : String) (confirmDelete : Bool)
deriving DecidableEq, Repr

/-- Effect of one management operation on the persisted store: when the
operation saves, the store becomes the saved list, and when it returns
without saving the store is unchanged. -/
def applyOp (store : List Fido2StoredKey) : StoreOp → List Fido2StoredKey
  | .setOp id label value credentialId publicKey iv now confirmReplace =>
    (setKey store id label value credentialId publicKey iv now confirmReplace).getD store
  | .deleteOp id confirmDelete =>
    (deleteKey store id confirmDelete).getD store

/-- Persisted store after a sequence of management operations. -/
def runOps (store : List Fido2StoredKey) (ops : List StoreOp) :
    List Fido2StoredKey :=
  ops.foldl applyOp store

/-- Store well-formedness: no two records share an `id`. -/
def uniqueIds (store : List Fido2StoredKey) : Prop :=
  (store.map (fun k => k.id)).Nodup

instance (store : List Fido2StoredKey) : Decidable (uniqueIds store) := by
  unfold uniqueIds
  infer_instance

/-!
Concrete records and requests used by the witness and counterexample
theorems below.
-/

/-- Public key returned by the mock `createCredential` (a 65-byte
zeroed P-256 public key). -/
def pk0 : Bytes := List.replicate 65 0

/-- A 12-byte IV as drawn by `encryptValue`. -/
def iv0 : Bytes := List.replicate 12 0

/-- Credential id produced by the mock `createCredential` for a secret
with id `openai-api-key`: the source builds
`fido2-${userId}-${Date.now()}` with `userId = openclaw-${id}`. -/
def c1CredId : String := "fido2-openclaw-openai-api-key-1700000000000"

/-- Store produced by a single `setKey` on an empty store, enrolling the
mock credential above. -/
def c1Store : List Fido2StoredKey :=
  (setKey [] "openai-api-key" "OpenAI API Key" "sk-secret" c1CredId pk0 iv0
    1700000000000 true).getD []

/-- The record `setKey` persists in `c1Store`, written out field by
field: its ciphertext is sealed under the key derived from the enrolled
`credentialId`, not from the record `id`. -/
def c1Record : Fido2StoredKey :=
  { id := "openai-api-key"
    label := "OpenAI API Key"
    encryptedValue := some (.sealed
      { key := deriveEncryptionKey c1CredId pk0, iv := iv0, data := "sk-secret" })
    iv := some iv0
    createdAt := 1700000000000
    rpId := "openclaw.ai"
    userHandle := "openclaw-openai-api-key"
    credentialId := some c1CredId
    credentialPublicKey := some pk0 }

/-- A legacy record lacking `credentialPublicKey`, with a plaintext
value sitting in `encryptedValue`. -/
def recLegacy : Fido2StoredKey :=
  { id := "legacy-key"
    label := "Legacy"
    encryptedValue := some (.raw "plain-secret")
    iv := none
    createdAt := 0
    rpId := "openclaw.ai"
    userHandle := "u"
    credentialId := none
    credentialPublicKey := none }

/-- A hardware-bound record for id `a` whose ciphertext decrypts under
the key the resolver derives (sealed under the key derived from the
record id, matching the resolver's read path). -/
def recA : Fido2StoredKey :=
  { id := "a"
    label := "A"
    encryptedValue := some (.sealed
      { key := deriveEncryptionKey "a" [1, 2, 3], iv := List.replicate 12 7
        data := "secret-A" })
    iv := some (List.replicate 12 7)
    createdAt := 1
    rpId := "openclaw.ai"
    userHandle := "ua"
    credentialId := some "a"
    credentialPublicKey := some [1, 2, 3] }

/-- A well-formed request for the identifiers `a` and `b`. -/
def reqAB : ExecRequest :=
  { protocolVersion := some 1, provider := some "fido2", ids := some ["a", "b"] }

/-- A well-formed request for the single identifier `a`. -/
def reqA : ExecRequest :=
  { protocolVersion := some 1, provider := some "fido2", ids := some ["a"] }

/-- A request carrying protocol version 2 against this version-1
resolver. -/
def reqBadVersion : ExecRequest :=
  { protocolVersion := some 2, provider := some "fido2", ids := some ["a"] }

/-- A store file holding `recA` only. -/
def storeA : StoreFileState := .parsed (.array [recA])

/-- A store file whose contents are not parseable JSON. -/
def storeCorrupt : StoreFileState := .unparseable "this is not json"

/-- An operation sequence exercising replace-on-set, fresh insert and
confirmed delete, used by the store-invariant witness. -/
def opsW : List StoreOp :=
  [ .setOp "a" "A" "v2" "cid2" [4] [5] 5 true
  , .setOp "b" "B" "v" "cidb" [6] [7] 6 false
  , .deleteOp "a" true ]

/-- The pair of entries a response holds for one identifier. -/
def entryPair (resp : ExecResponse) (id : String) :
    Option ResolvedValue × Option String :=
  (mlookup resp.values id, mlookup resp.errors id)

/-- The entry pair one identifier's independent resolution dictates. -/
def outcomePair (storedKeys : List Fido2StoredKey) (id : String) :
    Option ResolvedValue × Option String :=
  match idResolution storedKeys id with
  | .ok v => (some v, none)
  | .error m => (none, some m)

/-!
Helper lemmas about the association-list maps, the per-identifier loop
and the store mutators.
-/

theorem mlookup_mupsert_self {α : Type} (m : List (String × α)) (k : String)
    (v : α) : mlookup (mupsert m k v) k = some v := by
  induction m with
  | nil => simp [mupsert, mlookup]
  | cons p rest ih =>
    by_cases h : p.1 = k
    · simp [mupsert, h, mlookup]
    · simp [mupsert, h, mlookup, ih]

theorem mlookup_mupsert_ne {α : Type} (m : List (String × α)) (k k' : String)
    (v : α) (h : k' ≠ k) : mlookup (mupsert m k v) k' = mlookup m k' := by
  have hne : k ≠ k' := fun hh => h hh.symm
  induction m with
  | nil => simp [mupsert, mlookup, hne]
  | cons p rest ih =>
    by_cases hp : p.1 = k
    · subst hp
      simp [mupsert, mlookup, hne]
    · simp [mupsert, hp, mlookup, ih]

theorem entryPair_respStep_self (storedKeys : List Fido2StoredKey)
    (resp : ExecResponse) (a : String)
    (h : entryPair resp a = (none, none) ∨
      entryPair resp a = outcomePair storedKeys a) :
    entryPair (respStep storedKeys resp a) a = outcomePair storedKeys a := by
  unfold entryPair at h ⊢
  unfold respStep
  unfold outcomePair idResolution
  cases hfind : storedKeys.find? (fun k => decide (k.id = normalizeId a)) with
  | none =>
    simp only [hfind]
    have hv : mlookup resp.values a = none := by
      rcases h with h | h
      · exact congrArg Prod.fst h
      · unfold outcomePair idResolution at h
        rw [hfind] at h
        exact congrArg Prod.fst h
    simp [mlookup_mupsert_self, hv]
  | some k =>
    simp only [hfind]
    cases hres : resolveSecretKey (normalizeId a) k with
    | value v =>
      simp only [hres]
      have he : mlookup resp.errors a = none := by
        rcases h with h | h
        · exact congrArg Prod.snd h
        · unfold outcomePair idResolution at h
          rw [hfind] at h
          simp only [hres] at h
          exact congrArg Prod.snd h
      simp [mlookup_mupsert_self, he]
    | failure c m =>
      simp only [hres]
      have hv : mlookup resp.values a = none := by
        rcases h with h | h
        · exact congrArg Prod.fst h
        · unfold outcomePair idResolution at h
          rw [hfind] at h
          simp only [hres] at h
          exact congrArg Prod.fst h
      simp [mlookup_mupsert_self, hv]

theorem entryPair_respStep_ne (storedKeys : List Fido2StoredKey)
    (resp : ExecResponse) (a id : String) (h : id ≠ a) :
    entryPair (respStep storedKeys resp a) id = entryPair resp id := by
  unfold entryPair respStep
  cases hfind : storedKeys.find? (fun k => decide (k.id = normalizeId a)) with
  | none => simp [hfind, mlookup_mupsert_ne _ _ _ _ h]
  | some k =>
    cases hres : resolveSecretKey (normalizeId a) k with
    | value v => simp [hfind, hres, mlookup_mupsert_ne _ _ _ _ h]
    | failure c m => simp [hfind, hres, mlookup_mupsert_ne _ _ _ _ h]

theorem entryPair_foldl (storedKeys : List Fido2StoredKey) :
    ∀ (ids : List String) (resp : ExecResponse),
      (∀ id, entryPair resp id = (none, none) ∨
        entryPair resp id = outcomePair storedKeys id) →
      ∀ id, entryPair (ids.foldl (respStep storedKeys) resp) id =
        if id ∈ ids then outcomePair storedKeys id else entryPair resp id := by
  intro ids
  induction ids with
  | nil => intro resp _ id; simp
  | cons a rest ih =>
    intro resp hinv id
    have hstep : ∀ id', entryPair (respStep storedKeys resp a) id' =
        (none, none) ∨
        entryPair (respStep storedKeys resp a) id' = outcomePair storedKeys id' := by
      intro id'
      by_cases hid : id' = a
      · subst hid
        exact Or.inr (entryPair_respStep_self storedKeys resp id' (hinv id'))
      · rw [entryPair_respStep_ne storedKeys resp a id' hid]
        exact hinv id'
    have hrest := ih (respStep storedKeys resp a) hstep id
    simp only [List.foldl_cons]
    rw [hrest]
    by_cases hmem : id ∈ rest
    · simp [hmem]
    · by_cases hid : id = a
      · subst hid
        simp [hmem, entryPair_respStep_self storedKeys resp id (hinv id)]
      · simp [hmem, hid, entryPair_respStep_ne storedKeys resp a id hid]

theorem removeFirstById_sublist (id : String) (l : List Fido2StoredKey) :
    (removeFirstById id l).Sublist l := by
  induction l with
  | nil => simp [removeFirstById]
  | cons k ks ih =>
    by_cases h : k.id = id
    · rw [removeFirstById, if_pos h]
      exact List.sublist_cons_self k ks
    · rw [removeFirstById, if_neg h]
      exact List.Sublist.cons₂ k ih

theorem not_mem_map_removeFirstById (id : String) (l : List Fido2StoredKey)
    (h : (l.map (fun k => k.id)).Nodup) :
    id ∉ (removeFirstById id l).map (fun k => k.id) := by
  induction l with
  | nil => simp [removeFirstById]
  | cons k ks ih =>
    rw [List.map_cons, List.nodup_cons] at h
    by_cases he : k.id = id
    · rw [he] at h
      simpa [removeFirstById, he] using h.1
    · have hne : ¬id = k.id := fun hh => he hh.symm
      simpa [removeFirstById, he, hne] using ih h.2

theorem uniqueIds_setKey (store : List Fido2StoredKey)
    (id label value credentialId : String) (publicKey iv : Bytes) (now : Nat)
    (confirmReplace : Bool) (h : uniqueIds store) :
    uniqueIds ((setKey store id label value credentialId publicKey iv now
      confirmReplace).getD store) := by
  unfold uniqueIds at h ⊢
  cases hany : store.any (fun k => decide (k.id = id)) with
  | false =>
    have hnot : id ∉ store.map (fun k => k.id) := by
      intro hmem
      rcases List.mem_map.mp hmem with ⟨k, hk, hke⟩
      have := List.any_eq_false.mp hany k hk
      simp [hke] at this
    simp only [setKey, hany, Bool.false_eq_true, if_false, Option.getD_some]
    rw [List.map_append, List.map_singleton]
    exact List.Nodup.append h (by simp) (by simpa [List.disjoint_singleton] using hnot)
  | true =>
    cases confirmReplace with
    | false => simpa [setKey, hany] using h
    | true =>
      have hsub : ((removeFirstById id store).map (fun k => k.id)).Nodup :=
        h.sublist ((removeFirstById_sublist id store).map _)
      have hnot := not_mem_map_removeFirstById id store h
      simp only [setKey, hany, if_true, Option.getD_some]
      rw [List.map_append, List.map_singleton]
      exact List.Nodup.append hsub (by simp)
        (by simpa [List.disjoint_singleton] using hnot)

theorem uniqueIds_deleteKey (store : List Fido2StoredKey) (id : String)
    (confirmDelete : Bool) (h : uniqueIds store) :
    uniqueIds ((deleteKey store id confirmDelete).getD store) := by
  unfold uniqueIds at h ⊢
  cases hany : store.any (fun k => decide (k.id = id)) with
  | false => simpa [deleteKey, hany] using h
  | true =>
    cases confirmDelete with
    | false => simpa [deleteKey, hany] using h
    | true =>
      simp only [deleteKey, hany, if_true, Option.getD_some]
      exact h.sublist ((List.filter_sublist store).map _)

theorem uniqueIds_applyOp (store : List Fido2StoredKey) (op : StoreOp)
    (h : uniqueIds store) : uniqueIds (applyOp store op) := by
  cases op with
  | setOp id label value credentialId publicKey iv now confirmReplace =>
    exact uniqueIds_setKey store id label value credentialId publicKey iv now
      confirmReplace h
  | deleteOp id confirmDelete => exact uniqueIds_deleteKey store id confirmDelete h

theorem resolveSecrets_valid (req : ExecRequest) (store : StoreFileState)
    (ids : List String) (storedKeys : List Fido2StoredKey)
    (hv : req.protocolVersion = some 1) (hp : req.provider = some "fido2")
    (hids : req.ids = some ids) (hne : ids ≠ [])
    (hload : resolverLoadStoredKeys store = .ok storedKeys) :
    resolveSecrets req store =
      .ok (ids.foldl (respStep storedKeys) emptyResponse) := by
  cases ids with
  | nil => exact absurd rfl hne
  | cons a rest => simp [resolveSecrets, hv, hp, hids, hload]

theorem resolveSecrets_invalid (req : ExecRequest)
    (h : req.protocolVersion ≠ some 1 ∨ req.provider ≠ some "fido2" ∨
      req.ids = none ∨ req.ids = some []) :
    ∃ m, ∀ store, resolveSecrets req store = .error m := by
  by_cases hv : req.protocolVersion = some 1
  · by_cases hp : req.provider = some "fido2"
    · cases hids : req.ids with
      | none =>
        refine ⟨"请求中缺少有效的 IDs", fun store => ?_⟩
        unfold resolveSecrets
        rw [if_neg (not_not_intro hv), if_neg (not_not_intro hp), hids]
      | some l =>
        cases l with
        | nil =>
          refine ⟨"请求中缺少有效的 IDs", fun store => ?_⟩
          unfold resolveSecrets
          rw [if_neg (not_not_intro hv), if_neg (not_not_intro hp), hids]
        | cons a rest =>
          exfalso
          rcases h with h | h | h | h
          · exact h hv
          · exact h hp
          · rw [hids] at h; exact Option.noConfusion h
          · rw [hids] at h; simp at h
    · refine ⟨"不支持的 provider: " ++ showOptStr req.provider, fun store => ?_⟩
      unfold resolveSecrets
      rw [if_neg (not_not_intro hv), if_pos hp]
  · refine ⟨"不支持的协议版本: " ++ showOptNat req.protocolVersion ++ ", 支持: 1",
      fun store => ?_⟩
    unfold resolveSecrets
    rw [if_pos hv]

/-!
Claim theorems.
-/

/-- C1: evaluation of the code at a failing input. A record written by
`setKey` (which derives the encryption key from the enrolled
`credentialId`) cannot be decrypted by the resolver, because
`resolveSecretKey` derives the key from the requested identifier `id`
instead of the record's stored `credentialId`: the two derived keys
differ, per-identifier resolution ends in a decryption failure, and yet
the very same ciphertext decrypts under the set-time key. This refutes
the claim that the key derived at resolve time equals the key derived at
set time. -/
theorem c1_resolve_time_key_differs_from_set_time_key :
    c1Store = [c1Record] ∧
    deriveEncryptionKey c1CredId pk0 ≠ deriveEncryptionKey "openai-api-key" pk0 ∧
    idResolution c1Store "openai-api-key" = .error "解密失败: OperationError" ∧
    decryptValue (.sealed
        { key := deriveEncryptionKey c1CredId pk0, iv := iv0, data := "sk-secret" })
      iv0 (deriveEncryptionKey c1CredId pk0) = .ok "sk-secret" := by
  refine ⟨by decide, by decide, by decide, by decide⟩

/-- C2: evaluation of the code at a failing input. For the accepted
request for identifier `a` against a store file that is not parseable
JSON, `resolveSecrets` swallows the load failure and answers with a
response whose `values` and `errors` maps are both empty and exit code
0, so the requested identifier appears in neither map — refuting the
claim that every requested identifier appears in exactly one of the two
maps when loading the persisted store fails. -/
theorem c2_store_load_failure_drops_requested_ids :
    fido2Main reqA storeCorrupt =
      ({ protocolVersion := 1, provider := "fido2", values := [], errors := [] }, 0) ∧
    mlookup (fido2Main reqA storeCorrupt).1.values "a" = none ∧
    mlookup (fido2Main reqA storeCorrupt).1.errors "a" = none := by
  refine ⟨by decide, by decide, by decide⟩

/-- C3: counterexample. The record `recLegacy` exists for the requested
identifier but is not hardware-bound (its `credentialPublicKey` is
absent); the claim says the resolver must record an error for it and
never place its stored value in `values`, yet the resolver places the
record's stored `encryptedValue` into the `values` map unchanged and
records no error. -/
theorem c3_counterexample_plaintext_passthrough :
    mlookup (fido2Main reqA (.parsed (.array
      [{ recLegacy with id := "a" }]))).1.values "a" =
      some (.passthrough (some (.raw "plain-secret"))) ∧
    mlookup (fido2Main reqA (.parsed (.array
      [{ recLegacy with id := "a" }]))).1.errors "a" = none := by
  refine ⟨by decide, by decide⟩

/-- C3 (amended): for every record that is not hardware-bound — the JS
truthiness of `encryptedValue && credentialPublicKey` fails — the
resolver does not record an error for shape but returns the record's
stored `encryptedValue` unchanged as the resolved value (the legacy
plaintext passthrough, the 向后兼容 branch of `resolveSecretKey`). -/
theorem c3_non_hardware_bound_passthrough (id : String) (k : Fido2StoredKey)
    (h : (truthyEnc k.encryptedValue && truthyPk k.credentialPublicKey) = false) :
    resolveSecretKey id k = .value (.passthrough k.encryptedValue) := by
  unfold resolveSecretKey
  cases henc : k.encryptedValue with
  | none => cases k.credentialPublicKey <;> rfl
  | some blob =>
    cases hpk : k.credentialPublicKey with
    | none => rfl
    | some pk =>
      rw [henc, hpk] at h
      simp only [h, Bool.false_eq_true, if_false]

/-- C3 (amended) witness at the legacy record. -/
theorem c3_non_hardware_bound_passthrough_witness :
    (truthyEnc recLegacy.encryptedValue &&
      truthyPk recLegacy.credentialPublicKey) = false ∧
    resolveSecretKey "legacy-key" recLegacy =
      .value (.passthrough (some (.raw "plain-secret"))) :=
  ⟨by decide, c3_non_hardware_bound_passthrough "legacy-key" recLegacy (by decide)⟩

/-- C4: round trip. For every plaintext string, every credential pair
and every IV, decrypting the ciphertext and IV produced by
`encryptValue` under the key `deriveEncryptionKey(credentialId,
publicKey)` with `decryptValue` under the same derived key returns the
plaintext. -/
theorem c4_encrypt_decrypt_roundtrip (v credentialId : String)
    (publicKey iv : Bytes) :
    decryptValue
      (encryptValue v (deriveEncryptionKey credentialId publicKey) iv).encrypted
      (encryptValue v (deriveEncryptionKey credentialId publicKey) iv).iv
      (deriveEncryptionKey credentialId publicKey) = .ok v := by
  simp [decryptValue, encryptValue, aesGcmDecrypt]

/-- C5: whole-request rejection. For every request whose protocol
version is not 1, whose provider is not `fido2`, or whose `ids` field is
absent, not an array, or empty, the resolver answers with exit code 1
and a response with no values and the single reserved `_system` error
key; and the answer is independent of the store state, witnessing that
no per-identifier resolution was performed. -/
theorem c5_request_rejection (req : ExecRequest) (store : StoreFileState)
    (h : req.protocolVersion ≠ some 1 ∨ req.provider ≠ some "fido2" ∨
      req.ids = none ∨ req.ids = some []) :
    (fido2Main req store).2 = 1 ∧
    (fido2Main req store).1.values = [] ∧
    (∃ m, (fido2Main req store).1.errors = [("_system", m)]) ∧
    ∀ store', fido2Main req store' = fido2Main req store := by
  obtain ⟨m, hm⟩ := resolveSecrets_invalid req h
  have hmain : ∀ s, fido2Main req s =
      ({ protocolVersion := 1, provider := "fido2", values := []
         errors := [("_system", m)] }, 1) := by
    intro s
    simp [fido2Main, hm s]
  exact ⟨by rw [hmain store], by rw [hmain store], ⟨m, by rw [hmain store]⟩,
    fun store' => by rw [hmain store', hmain store]⟩

/-- C5 witness: the spec's own example, protocol version 2 against the
version-1 resolver. -/
theorem c5_request_rejection_witness :
    reqBadVersion.protocolVersion ≠ some 1 ∧
    (fido2Main reqBadVersion .absent).2 = 1 ∧
    (fido2Main reqBadVersion .absent).1.values = [] := by
  have h := c5_request_rejection reqBadVersion .absent (Or.inl (by decide))
  exact ⟨by decide, h.1, h.2.1⟩

/-- C6: per-identifier isolation. For every accepted request whose store
loads successfully, the exit code is 0 and every requested identifier's
entry in the response is exactly the outcome of its own independent
resolution (`idResolution`, a function of the loaded records and that
identifier alone): an identifier whose resolution fails gets its own
`errors` entry and no `values` entry, and every other identifier still
receives the entry its own resolution dictates, unaffected by that
failure. -/
theorem c6_per_identifier_isolation (req : ExecRequest)
    (store : StoreFileState) (ids : List String)
    (storedKeys : List Fido2StoredKey)
    (hv : req.protocolVersion = some 1) (hp : req.provider = some "fido2")
    (hids : req.ids = some ids) (hne : ids ≠ [])
    (hload : resolverLoadStoredKeys store = .ok storedKeys) :
    (fido2Main req store).2 = 0 ∧
    ∀ id ∈ ids,
      (∀ v, idResolution storedKeys id = .ok v →
        mlookup (fido2Main req store).1.values id = some v ∧
        mlookup (fido2Main req store).1.errors id = none) ∧
      (∀ m, idResolution storedKeys id = .error m →
        mlookup (fido2Main req store).1.errors id = some m ∧
        mlookup (fido2Main req store).1.values id = none) := by
  have hres := resolveSecrets_valid req store ids storedKeys hv hp hids hne hload
  have hmain : fido2Main req store =
      (ids.foldl (respStep storedKeys) emptyResponse, 0) := by
    simp [fido2Main, hres]
  have hfold := entryPair_foldl storedKeys ids emptyResponse
    (fun id => Or.inl (by simp [entryPair, emptyResponse, mlookup]))
  refine ⟨by simp [hmain], fun id hid => ?_⟩
  have hpair := hfold id
  rw [if_pos hid] at hpair
  constructor
  · intro v hv'
    have : entryPair (ids.foldl (respStep storedKeys) emptyResponse) id =
        (some v, none) := by
      rw [hpair]; unfold outcomePair; rw [hv']
    rw [hmain]
    exact ⟨congrArg Prod.fst this, congrArg Prod.snd this⟩
  · intro m hm'
    have : entryPair (ids.foldl (respStep storedKeys) emptyResponse) id =
        (none, some m) := by
      rw [hpair]; unfold outcomePair; rw [hm']
    rw [hmain]
    exact ⟨congrArg Prod.snd this, congrArg Prod.fst this⟩

/-- C6 witness: the spec's partial-failure example — `a` exists and
decrypts, `b` is absent; `a` lands in `values`, `b` in `errors`, exit
code 0. -/
theorem c6_per_identifier_isolation_witness :
    (fido2Main reqAB storeA).2 = 0 ∧
    mlookup (fido2Main reqAB storeA).1.values "a" = some (.plain "secret-A") ∧
    mlookup (fido2Main reqAB storeA).1.errors "a" = none ∧
    mlookup (fido2Main reqAB storeA).1.errors "b" =
      some "Key not found in FIDO2 storage" ∧
    mlookup (fido2Main reqAB storeA).1.values "b" = none := by
  have h := c6_per_identifier_isolation reqAB storeA ["a", "b"] [recA]
    rfl rfl rfl (by decide) rfl
  have ha := (h.2 "a" (by decide)).1 (.plain "secret-A") (by decide)
  have hb := (h.2 "b" (by decide)).2 "Key not found in FIDO2 storage" (by decide)
  exact ⟨h.1, ha.1, ha.2, hb.1, hb.2⟩

/-- C7: key-derivation parameters and determinism. For every credential
pair, the derived key's input key material is the encoded
`credentialId` concatenated with the raw public-key bytes, its salt is
the public key, it uses 100000 PBKDF2 iterations with SHA-256, and it is
a non-exportable 256-bit AES-GCM key; the derivation is a pure function
taking no random input, and a key derived by a second call with
identical inputs decrypts ciphertext encrypted under the first call's
key. -/
theorem c7_deriveEncryptionKey_parameters_and_determinism
    (credentialId : String) (publicKey : Bytes) :
    (deriveEncryptionKey credentialId publicKey).ikm =
      textEncode credentialId ++ publicKey ∧
    (deriveEncryptionKey credentialId publicKey).salt = publicKey ∧
    (deriveEncryptionKey credentialId publicKey).iterations = 100000 ∧
    (deriveEncryptionKey credentialId publicKey).hashAlg = "SHA-256" ∧
    (deriveEncryptionKey credentialId publicKey).keyAlg = "AES-GCM" ∧
    (deriveEncryptionKey credentialId publicKey).keyLength = 256 ∧
    (deriveEncryptionKey credentialId publicKey).extractable = false ∧
    ∀ v iv,
      decryptValue
        (encryptValue v (deriveEncryptionKey credentialId publicKey) iv).encrypted
        (encryptValue v (deriveEncryptionKey credentialId publicKey) iv).iv
        (deriveEncryptionKey credentialId publicKey) = .ok v := by
  refine ⟨rfl, rfl, rfl, rfl, rfl, rfl, rfl, fun v iv => ?_⟩
  simp [decryptValue, encryptValue, aesGcmDecrypt]

/-- C8: unique-id invariant. Starting from a store with unique record
ids, any sequence of `set` and `delete` operations preserves uniqueness
of ids in the persisted store; and a confirmed `set` targeting an
existing id removes the old record before appending the new one, leaving
exactly one record with that id. -/
theorem c8_store_unique_ids (store : List Fido2StoredKey) (ops : List StoreOp)
    (h : uniqueIds store) :
    uniqueIds (runOps store ops) ∧
    ∀ id label value credentialId publicKey iv now,
      (∃ k ∈ store, k.id = id) →
      ((setKey store id label value credentialId publicKey iv now true).getD
        store).countP (fun k => decide (k.id = id)) = 1 := by
  constructor
  · unfold runOps
    induction ops generalizing store with
    | nil => exact h
    | cons op rest ih =>
      exact ih (applyOp store op) (uniqueIds_applyOp store op h)
  · intro id label value credentialId publicKey iv now hex
    have hany : store.any (fun k => decide (k.id = id)) = true := by
      rw [List.any_eq_true]
      obtain ⟨k, hk, he⟩ := hex
      exact ⟨k, hk, by simp [he]⟩
    have hzero : (removeFirstById id store).countP
        (fun k => decide (k.id = id)) = 0 := by
      rw [List.countP_eq_zero]
      intro a ha hcount
      have haid : a.id = id := by simpa using hcount
      exact not_mem_map_removeFirstById id store h
        (List.mem_map.mpr ⟨a, ha, haid⟩)
    simp only [setKey, hany, if_true, Option.getD_some]
    rw [List.countP_append, hzero]
    simp

/-- C8 witness: a replace, an insert and a delete starting from a
one-record store, plus the replace-count fact. -/
theorem c8_store_unique_ids_witness :
    uniqueIds (runOps [recA] opsW) ∧
    ((setKey [recA] "a" "A2" "v2" "cid2" [4] [5] 7 true).getD
      [recA]).countP (fun k => decide (k.id = "a")) = 1 := by
  have h := c8_store_unique_ids [recA] opsW (by decide)
  exact ⟨h.1, h.2 "a" "A2" "v2" "cid2" [4] [5] 7 ⟨recA, by decide, by decide⟩⟩

/-- C9: counterexample. On a store file that exists but is not
parseable JSON, the CLI's `loadStoredKeys` does not fail: it swallows
the error and returns the empty sequence — the same answer it gives for
an absent store — while the resolver's `loadStoredKeys` surfaces a
storage-read error for the identical file state. -/
theorem c9_counterexample_cli_load_swallows :
    cliLoadStoredKeys storeCorrupt = [] ∧
    cliLoadStoredKeys .absent = [] ∧
    resolverLoadStoredKeys storeCorrupt = .error "读取存储文件失败" := by
  refine ⟨rfl, rfl, rfl⟩

/-- C9 (amended): the resolver's `loadStoredKeys` behaves as the claim
states — empty sequence for an absent store, a surfaced storage-read
error for an unparseable file or a parsed non-array value, and the
records for a well-formed store — while the CLI's `loadStoredKeys`
returns the empty sequence on every failure, swallowing corruption. -/
theorem c9_load_store_behavior :
    resolverLoadStoredKeys .absent = .ok [] ∧
    (∀ raw, resolverLoadStoredKeys (.unparseable raw) =
      .error "读取存储文件失败") ∧
    resolverLoadStoredKeys (.parsed .notArray) =
      .error "读取存储文件失败: 存储文件格式无效: 不是数组" ∧
    (∀ ks, resolverLoadStoredKeys (.parsed (.array ks)) = .ok ks) ∧
    cliLoadStoredKeys .absent = [] ∧
    (∀ raw, cliLoadStoredKeys (.unparseable raw) = []) :=
  ⟨rfl, fun _ => rfl, rfl, fun _ => rfl, rfl, fun _ => rfl⟩

/-- C10: declined overwrite leaves the store untouched. When `set`
targets an existing id and the user declines the overwrite
confirmation, `setKey` returns without calling `saveStoredKeys` (result
`none`), so the persisted record sequence is unchanged — even though
enrollment and encryption of the new value were already performed
before the prompt, as the argument order of the embedding records. -/
theorem c10_set_cancel_preserves_store (store : List Fido2StoredKey)
    (id label value credentialId : String) (publicKey iv : Bytes) (now : Nat)
    (h : ∃ k ∈ store, k.id = id) :
    setKey store id label value credentialId publicKey iv now false = none ∧
    applyOp store (.setOp id label value credentialId publicKey iv now false) =
      store := by
  have hany : store.any (fun k => decide (k.id = id)) = true := by
    rw [List.any_eq_true]
    obtain ⟨k, hk, he⟩ := h
    exact ⟨k, hk, by simp [he]⟩
  constructor
  · simp [setKey, hany]
  · simp [applyOp, setKey, hany]

/-- C10 witness: declining the overwrite of the existing record `a`. -/
theorem c10_set_cancel_preserves_store_witness :
    setKey [recA] "a" "A2" "v2" "cid2" [4] [5] 9 false = none ∧
    applyOp [recA] (.setOp "a" "A2" "v2" "cid2" [4] [5] 9 false) = [recA] :=
  c10_set_cancel_preserves_store [recA] "a" "A2" "v2" "cid2" [4] [5] 9
    ⟨recA, by decide, by decide⟩

end OpenclawFido
